import Mathlib

/-!
Shallow embedding of the scoreboard service (problem6) of the
tech-99-code-challenge repository: the score-update pipeline
(`ScoreService.updateScore` and the POST route handler in
`scoreRoutes.ts`), the action-token validator and per-user rate limiter
(`AuthService`), and the Redis-backed ranked store and leaderboard
queries (`RedisClientWrapper`, `LeaderboardService`).

Conventions of the embedding:
* Redis and PostgreSQL are modelled as typed projections of their
  keyspaces inside a single `World` record: score rows, the audit table,
  the `user_score:*` cache entries, the `leaderboard:global` sorted set,
  the `leaderboard:topN` snapshot cache, the `action_token:*` used-nonce
  keys and the `rate_limit:*` counters.  Times are seconds (`Nat`); a
  Redis key with an expiry `e` is live while `clock < e`.  A plain Redis
  `SET` stores the value with no expiration, discarding any TTL the key
  had; `SETEX` attaches one.  The 5-minute TTL of the `user_score:*`
  cache entries is not modelled (no claim depends on their expiry).
* JWT verification is abstracted: a token is either `malformed`
  (signature failure) or `signed payload`; `jwt.verify` rejects a signed
  token once the clock passes `timestamp + 300` (the 5-minute expiry
  used by `AuthService.generateActionToken`).
* The `BEGIN`/`COMMIT` transaction of `updateScore` is modelled as an
  atomic unit: when persistence fails the score write and the success
  audit row are both rolled back.  Connection pooling, concurrency and
  socket notifications are outside the embedding.
-/

namespace Scoreboard

/-- Lookup in an association list keyed by strings (first match). -/
def alookup (k : String) : List (String × α) → Option α
  | [] => none
  | (k2, v) :: t => if k2 = k then some v else alookup k t

/-- Store `v` under `k`, replacing any previous binding: models Redis
`SET`/`SETEX`/`ZADD` on a single key and the SQL upsert
`ON CONFLICT (user_id) DO UPDATE`. -/
def aset (k : String) (v : α) (l : List (String × α)) : List (String × α) :=
  (k, v) :: l.filter (fun p => decide (p.1 ≠ k))

/-- Error codes of `src/types` (`ErrorCodes`); `DB_ERROR` stands for the
message of a thrown persistence exception. -/
inductive ErrCode where
  | INVALID_ACTION_TOKEN
  | EXPIRED_TOKEN
  | UNAUTHORIZED
  | RATE_LIMIT_EXCEEDED
  | INVALID_SCORE_INCREMENT
  | USER_NOT_FOUND
  | INTERNAL_ERROR
  | DB_ERROR
  deriving DecidableEq, Repr

/-- The action-type whitelist shared by `AuthService.validateActionToken`
and the Joi `scoreUpdateSchema` (`ActionType` enum). -/
def validActionTypes : List String :=
  ["GAME_COMPLETE", "LEVEL_COMPLETE", "ACHIEVEMENT_UNLOCK", "BONUS_COLLECT", "DAILY_LOGIN"]

/-- Payload of an action token (`ActionToken` in `src/types`). -/
structure ActionTok where
  userId : String
  actionType : String
  timestamp : Nat
  nonce : String
  deriving DecidableEq, Repr

/-- A raw JWT as seen by `jwt.verify`: either malformed (bad signature /
not a JWT) or a well-signed payload. -/
inductive JwtTok where
  | malformed
  | signed (payload : ActionTok)
  deriving DecidableEq, Repr

/-- One row of the `audit_log` table (`AuditLogEntry`); the generated
UUID, IP address and user agent are not modelled. -/
structure AuditEntry where
  userId : String
  actionType : String
  scoreChange : Int
  previousScore : Int
  newScore : Int
  timestamp : Nat
  success : Bool
  errorMessage : Option ErrCode
  deriving DecidableEq, Repr

/-- Combined durable-store and Redis state threaded through the
pipeline. -/
structure World where
  clock : Nat
  dbScores : List (String × Int)
  audit : List AuditEntry
  scoreCache : List (String × Int)
  zset : List (String × Int)
  snapCache : List (String × Nat)
  usedNonces : List (String × Nat)
  rateCounts : List (String × (Nat × Option Nat))
  deriving DecidableEq, Repr

/-- Empty process state: fresh database, cold caches, clock at zero. -/
def freshWorld : World :=
  { clock := 0, dbScores := [], audit := [], scoreCache := [], zset := [],
    snapCache := [], usedNonces := [], rateCounts := [] }

/-- Outcome of `AuthService.validateActionToken`: the
`{ valid, error? }` record. -/
inductive VResult where
  | ok
  | err (e : ErrCode)
  deriving DecidableEq, Repr

/-- Token validity window: `tokenExpiration = 5 * 60` seconds in
`AuthService`. -/
def tokenTtl : Nat := 300

/-- Whether the `action_token:<nonce>` Redis key is live (the token has
been consumed and its marker has not yet expired). -/
def nonceLive (w : World) (n : String) : Bool :=
  match alookup ("action_token:" ++ n) w.usedNonces with
  | some e => decide (w.clock < e)
  | none => false

/-- `AuthService.validateActionToken`, translated line by line: verify
signature and expiry, check token ownership, check and then mark the
one-time nonce, and only afterwards check the action type against the
whitelist. -/
def validateActionToken (tok : JwtTok) (userId : String) (w : World) : VResult × World :=
  match tok with
  | .malformed => (.err .INVALID_ACTION_TOKEN, w)
  | .signed p =>
    if p.timestamp + tokenTtl ≤ w.clock then
      (.err .EXPIRED_TOKEN, w)
    else if p.userId ≠ userId then
      (.err .UNAUTHORIZED, w)
    else if nonceLive w p.nonce then
      (.err .INVALID_ACTION_TOKEN, w)
    else
      let marked := aset ("action_token:" ++ p.nonce) (w.clock + tokenTtl) w.usedNonces
      let w1 := { w with usedNonces := marked }
      if p.actionType ∈ validActionTypes then (.ok, w1)
      else (.err .INVALID_ACTION_TOKEN, w1)

/-- Redis key of the fixed-window rate counter for `(userId, action)`. -/
def rateKey (userId action : String) : String :=
  "rate_limit:" ++ userId ++ ":" ++ action

/-- Current counter value as read by `RedisClient.get`: `0` when the key
is absent or its TTL has elapsed. -/
def rateCount (w : World) (k : String) : Nat :=
  match alookup k w.rateCounts with
  | some (c, some e) => if w.clock < e then c else 0
  | some (c, none) => c
  | none => 0

/-- `AuthService.checkRateLimit`: fixed window of 60 seconds, maximum 10
requests.  The first request stores the counter with `SETEX` (60-second
TTL); later requests store the incremented counter with a plain `SET`,
which leaves the key without any expiration. -/
def checkRateLimit (userId action : String) (w : World) : (Bool × Nat) × World :=
  let k := rateKey userId action
  let c := rateCount w k
  if 10 ≤ c then
    ((false, 0), w)
  else
    let n := c + 1
    if c = 0 then
      ((true, 10 - n), { w with rateCounts := aset k (n, some (w.clock + 60)) w.rateCounts })
    else
      ((true, 10 - n), { w with rateCounts := aset k (n, none) w.rateCounts })

/-- `ScoreService.getCurrentScore`: cache-first read of the actor score;
on a miss the database row (or `0`) is fetched and written back to the
`user_score:` cache. -/
def getCurrentScore (userId : String) (w : World) : Int × World :=
  match alookup userId w.scoreCache with
  | some v => (v, w)
  | none =>
    let dbv := (alookup userId w.dbScores).getD 0
    (dbv, { w with scoreCache := aset userId dbv w.scoreCache })

/-- Request body handed to `ScoreService.updateScore`
(`ScoreUpdateRequest` minus the token, which the route has already
consumed). -/
structure ScoreReq where
  userId : String
  actionType : String
  scoreIncrement : Int
  deriving DecidableEq, Repr

/-- The `ScoreUpdateResponse` record. -/
structure ScoreResp where
  success : Bool
  newScore : Int
  newRank : Option Nat
  message : Option ErrCode
  deriving DecidableEq, Repr

/-- `MAX_SCORE_INCREMENT` of `ScoreService`. -/
def MAX_SCORE_INCREMENT : Int := 1000

/-- Audit row written by the catch block of `updateScore`
(`success: false`, `newScore` hard-coded to `0`). -/
def mkFailEntry (req : ScoreReq) (prev : Int) (e : ErrCode) (t : Nat) : AuditEntry :=
  { userId := req.userId, actionType := req.actionType,
    scoreChange := req.scoreIncrement, previousScore := prev, newScore := 0,
    timestamp := t, success := false, errorMessage := some e }

/-- Audit row written on the success path of `updateScore`. -/
def mkSuccessEntry (req : ScoreReq) (prev newScore : Int) (t : Nat) : AuditEntry :=
  { userId := req.userId, actionType := req.actionType,
    scoreChange := req.scoreIncrement, previousScore := prev,
    newScore := newScore, timestamp := t, success := true, errorMessage := none }

/-- Catch block of `updateScore`: read the current score for the audit
row, append the failure entry, then read the current score again for the
response body. -/
def failPath (req : ScoreReq) (e : ErrCode) (w : World) : ScoreResp × World :=
  let r1 := getCurrentScore req.userId w
  let w2 := { r1.2 with audit := r1.2.audit ++ [mkFailEntry req r1.1 e r1.2.clock] }
  let r2 := getCurrentScore req.userId w2
  ({ success := false, newScore := r2.1, newRank := none, message := some e }, r2.2)

/-- Members of a Redis sorted set listed in the order of `ZREVRANGE`:
score descending, ties broken by member string descending (the reverse
of the lexicographic tie order of `ZRANGE`). -/
def revBefore (a b : String × Int) : Prop :=
  b.2 < a.2 ∨ (a.2 = b.2 ∧ b.1 ≤ a.1)

instance : DecidableRel revBefore := fun a b =>
  inferInstanceAs (Decidable (b.2 < a.2 ∨ (a.2 = b.2 ∧ b.1 ≤ a.1)))

instance : IsTotal (String × Int) revBefore where
  total a b := by
    rcases lt_trichotomy a.2 b.2 with h | h | h
    · exact Or.inr (Or.inl h)
    · rcases le_total a.1 b.1 with h1 | h1
      · exact Or.inr (Or.inr ⟨h.symm, h1⟩)
      · exact Or.inl (Or.inr ⟨h, h1⟩)
    · exact Or.inl (Or.inl h)

instance : IsTrans (String × Int) revBefore where
  trans a b c hab hbc := by
    rcases hab with h1 | ⟨h1, h1'⟩
    · rcases hbc with h2 | ⟨h2, h2'⟩
      · exact Or.inl (lt_trans h2 h1)
      · exact Or.inl (h2 ▸ h1)
    · rcases hbc with h2 | ⟨h2, h2'⟩
      · exact Or.inl (h1 ▸ h2)
      · exact Or.inr ⟨h1.trans h2, h2'.trans h1'⟩

/-- View of the sorted set in `ZREVRANGE` order. -/
def zrevList (z : List (String × Int)) : List (String × Int) :=
  z.insertionSort revBefore

/-- `zRevRank` of node-redis, as exposed by `RedisClientWrapper.zrank`:
0-based position of the member in descending-score order, `none` when
the member is absent. -/
def zRevRank (z : List (String × Int)) (m : String) : Option Nat :=
  if (alookup m z).isSome then some ((zrevList z).findIdx (fun p => p.1 == m))
  else none

/-- `ScoreService.getUserRank` over the `leaderboard:global` sorted set:
`zrank` (which the wrapper implements with `zRevRank`) plus one,
"Convert 0-based to 1-based ranking". -/
def getUserRank (z : List (String × Int)) (userId : String) : Option Nat :=
  match zRevRank z userId with
  | some r => some (r + 1)
  | none => none

/-- `ScoreService.updateScore`.  `persistOk` is the persistence oracle:
when it is `false` the database transaction (score upsert plus success
audit row) throws and is rolled back, and control reaches the catch
block.  On success the cache is refreshed, the old rank read, the sorted
set updated and the new rank computed; socket notifications have no
state effect. -/
def updateScore (req : ScoreReq) (persistOk : Bool) (w : World) : ScoreResp × World :=
  if req.scoreIncrement ≤ 0 ∨ MAX_SCORE_INCREMENT < req.scoreIncrement then
    failPath req .INVALID_SCORE_INCREMENT w
  else
    let r1 := getCurrentScore req.userId w
    let newScore := r1.1 + req.scoreIncrement
    if persistOk then
      let w2 := { r1.2 with
        dbScores := aset req.userId newScore r1.2.dbScores,
        audit := r1.2.audit ++ [mkSuccessEntry req r1.1 newScore r1.2.clock] }
      let w3 := { w2 with scoreCache := aset req.userId newScore w2.scoreCache }
      let w4 := { w3 with zset := aset req.userId newScore w3.zset }
      ({ success := true, newScore := newScore,
         newRank := getUserRank w4.zset req.userId, message := none }, w4)
    else
      failPath req .DB_ERROR r1.2

/-- Request body of `POST /api/scores/user/:userId`. -/
structure ScoreBody where
  actionType : String
  scoreIncrement : Int
  actionToken : JwtTok
  deriving DecidableEq, Repr

/-- Joi `scoreUpdateSchema` of `src/middleware/validation`: action type
from the enum, integer increment between 1 and 1000, token present. -/
def joiValid (b : ScoreBody) : Bool :=
  decide (b.actionType ∈ validActionTypes) &&
  decide (1 ≤ b.scoreIncrement) && decide (b.scoreIncrement ≤ 1000)

/-- Observable outcome of the POST route. -/
inductive RouteResp where
  | authFailed
  | badRequestValidation
  | tokenRejected (e : ErrCode)
  | rateLimited
  | scoreUpdateFailed (message : Option ErrCode)
  | succeeded (newScore : Int) (newRank : Option Nat)
  deriving DecidableEq, Repr

/-- The POST `/user/:userId` handler of `scoreRoutes.ts` together with
its middleware chain: `authMiddleware` (rejects user ids shorter than 3
characters), the Joi body validation, then — inside the handler —
`validateActionToken`, `checkRateLimit` and finally
`ScoreService.updateScore`.  The IP-keyed `express-rate-limit` middleware
is an external collaborator keyed by client address and is not
modelled. -/
def handleScoreUpdate (userId : String) (b : ScoreBody) (persistOk : Bool)
    (w : World) : RouteResp × World :=
  if userId.length < 3 then
    (.authFailed, w)
  else if ¬ joiValid b then
    (.badRequestValidation, w)
  else
    match validateActionToken b.actionToken userId w with
    | (.err e, w1) => (.tokenRejected e, w1)
    | (.ok, w1) =>
      let rl := checkRateLimit userId "score_update" w1
      if ¬ rl.1.1 then
        (.rateLimited, rl.2)
      else
        let res := updateScore
          { userId := userId, actionType := b.actionType,
            scoreIncrement := b.scoreIncrement } persistOk rl.2
        if res.1.success then
          (.succeeded res.1.newScore res.1.newRank, res.2)
        else
          (.scoreUpdateFailed res.1.message, res.2)

/-- Snapshot cache keys deleted by
`LeaderboardService.invalidateLeaderboardCache`. -/
def topCacheKeys : List String :=
  ["leaderboard:top10", "leaderboard:top25", "leaderboard:top50"]

/-- `LeaderboardService.invalidateLeaderboardCache`: delete the three
top-N snapshot keys. -/
def invalidateLeaderboardCache (w : World) : World :=
  { w with snapCache := w.snapCache.filter (fun p => decide (p.1 ∉ topCacheKeys)) }

/-- `LeaderboardService.updateUserScore`: `ZADD` the member and
invalidate the snapshot cache.  Reachable only from
`initializeSampleData`; the pipeline uses `ScoreService.updateLeaderboard`
instead. -/
def lbUpdateUserScore (userId : String) (score : Int) (w : World) : World :=
  invalidateLeaderboardCache { w with zset := aset userId score w.zset }

/-- `LeaderboardService.getUserPosition` (rank, 1-based, plus score and
cardinality read from the sorted set). -/
structure Position where
  rank : Option Nat
  score : Int
  totalUsers : Nat
  deriving DecidableEq, Repr

/-- `LeaderboardService.getUserPosition`: `zrank` (reverse rank) plus
one, `zscore` parsed with absent mapped to `0`, `zcard`. -/
def getUserPosition (z : List (String × Int)) (userId : String) : Position :=
  { rank := (zRevRank z userId).map (· + 1),
    score := (alookup userId z).getD 0,
    totalUsers := z.length }

/-- JavaScript `parseInt` restricted to the shapes that occur here: an
optional sign followed by leading decimal digits; `none` models `NaN`. -/
def jsDigits : Nat → List Char → Nat
  | acc, c :: cs => if c.isDigit then jsDigits (acc * 10 + (c.toNat - 48)) cs else acc
  | acc, [] => acc

/-- Leading-digit parse; `none` when the first character is not a
digit. -/
def jsLead : List Char → Option Nat
  | c :: cs => if c.isDigit then some (jsDigits (c.toNat - 48) cs) else none
  | [] => none

/-- JavaScript `parseInt` on a string (`none` = `NaN`). -/
def jsParseInt (s : String) : Option Int :=
  match s.toList with
  | '-' :: cs => (jsLead cs).map (fun n => -(n : Int))
  | cs => (jsLead cs).map (fun n => (n : Int))

/-- `RedisClientWrapper.zrevrange` with `withScores = true`: each member
of the range is rendered as the single string `"<member>:<score>"`. -/
def zrevrangeWithScores (z : List (String × Int)) (start stop : Nat) : List String :=
  (((zrevList z).drop start).take (stop + 1 - start)).map
    (fun p => p.1 ++ ":" ++ toString p.2)

/-- Entry construction loop of `LeaderboardService.getTopUsers` on a
snapshot-cache miss: the flat array returned by `zrevrange(key, 0,
limit-1, true)` is consumed two elements at a time, `topUserIds[i]` as
the user id and `parseInt(topUserIds[i+1])` as the score (an
out-of-range index reads as `undefined`, whose `parseInt` is `NaN`). -/
def getTopUsersEntries (z : List (String × Int)) (limit : Nat) :
    List (String × Option Int) :=
  let l := zrevrangeWithScores z 0 (limit - 1)
  (List.range ((l.length + 1) / 2)).map
    (fun j => (l.getD (2 * j) "", jsParseInt (l.getD (2 * j + 1) "")))

/-- Number of members whose score strictly exceeds `sc`: the quantity
the specification calls the 0-based rank. -/
def countGreater (z : List (String × Int)) (sc : Int) : Nat :=
  (z.filter (fun p => decide (sc < p.2))).length

/-- Ranked-store operations the specification reaches states through.
`remove` reflects `LeaderboardService.removeUser`, which deletes only the
`user_score:` cache entry and deliberately leaves the sorted set intact
("to maintain historical data"). -/
inductive ZOp where
  | upsert (userId : String) (score : Int)
  | remove (userId : String)
  deriving DecidableEq, Repr

/-- Effect of one ranked-store operation on the sorted set. -/
def applyZOp (z : List (String × Int)) : ZOp → List (String × Int)
  | .upsert u s => aset u s z
  | .remove _ => z

/-- Sorted-set states reachable by a sequence of operations. -/
def runZOps (ops : List ZOp) : List (String × Int) :=
  ops.foldl applyZOp []

/-- Sequences of pipeline calls (each with its persistence-oracle
outcome), for stating reachability invariants. -/
def runUpdates (steps : List (ScoreReq × Bool)) (w : World) : World :=
  steps.foldl (fun acc st => (updateScore st.1 st.2 acc).2) w

/-- Invariant stated by the specification: every persisted and every
cached actor score is non-negative. -/
def ScoresNonneg (w : World) : Prop :=
  (∀ p ∈ w.dbScores, 0 ≤ p.2) ∧ ∀ p ∈ w.scoreCache, 0 ≤ p.2

/-- The first four checks of `validateActionToken` (signature, expiry,
ownership, nonce freshness), bundled: when any of them fires the
validator rejects before reaching the mark-used step. -/
def earlyReject (p : ActionTok) (u : String) (w : World) : Bool :=
  decide (p.timestamp + tokenTtl ≤ w.clock) || decide (p.userId ≠ u) || nonceLive w p.nonce

/-- Scenario for C1: the submitted token's nonce was already consumed,
so the route rejects the request at token validation. -/
def c1World : World := { freshWorld with usedNonces := [("action_token:n1", 300)] }

/-- Scenario body for C1. -/
def c1Body : ScoreBody :=
  { actionType := "GAME_COMPLETE", scoreIncrement := 5,
    actionToken := .signed { userId := "u01", actionType := "GAME_COMPLETE",
                             timestamp := 0, nonce := "n1" } }

/-- Scenario for C3: the actor's fixed-window counter already sits at
the maximum of 10 (window still open), and a fresh valid token is
submitted. -/
def c3World : World :=
  { freshWorld with rateCounts := [(rateKey "u01" "score_update", (10, some 100))] }

/-- Scenario token payload for C3. -/
def c3TokP : ActionTok :=
  { userId := "u01", actionType := "GAME_COMPLETE", timestamp := 0, nonce := "n2" }

/-- Scenario body for C3. -/
def c3Body : ScoreBody :=
  { actionType := "GAME_COMPLETE", scoreIncrement := 5, actionToken := .signed c3TokP }

/-- State after the C3 scenario's token validation: the nonce marked
used, everything else as in `c3World`. -/
def c3W1 : World := { c3World with usedNonces := [("action_token:n2", 300)] }

/-- Scenario token for C4: well-signed, unexpired, owned by the caller,
fresh nonce, but with an action kind outside the whitelist. -/
def c4Tok : ActionTok :=
  { userId := "u01", actionType := "INVALID_KIND", timestamp := 0, nonce := "n4" }

/-- Scenario sorted set for C5: a single member reached by one upsert. -/
def c5Z : List (String × Int) := runZOps [ZOp.upsert "a" 100]

/-- Scenario operation list for the C5 witness: two members with
distinct scores. -/
def c5WOps : List ZOp := [ZOp.upsert "a" 100, ZOp.upsert "b" 50]

/-- Scenario sorted set for C6: two members with distinct scores. -/
def c6Z : List (String × Int) := runZOps [ZOp.upsert "a" 2, ZOp.upsert "b" 1]

/-- Scenario for C7: the actor has a persisted score but no cache entry,
and durable persistence fails. -/
def c7World : World := { freshWorld with dbScores := [("u07", 5)] }

/-- Scenario request for C7. -/
def c7Req : ScoreReq := { userId := "u07", actionType := "GAME_COMPLETE", scoreIncrement := 3 }

/-- One rate-limited request step for the C8 scenario. -/
def rateStep (w : World) : World := (checkRateLimit "u01" "score_update" w).2

/-- State after ten allowed requests in the same 60-second window. -/
def rateAfterTen : World := rateStep^[10] freshWorld

/-- Scenario for C9: a cached top-10 snapshot is present while a valid
score update goes through the whole pipeline. -/
def c9World : World := { freshWorld with snapCache := [("leaderboard:top10", 30)] }

/-- Scenario body for C9. -/
def c9Body : ScoreBody :=
  { actionType := "GAME_COMPLETE", scoreIncrement := 5,
    actionToken := .signed { userId := "u01", actionType := "GAME_COMPLETE",
                             timestamp := 0, nonce := "n3" } }

/-- Scenario token for the C2 witness: a fresh valid token for `u01`. -/
def c2Tok : ActionTok :=
  { userId := "u01", actionType := "GAME_COMPLETE", timestamp := 0, nonce := "n2w" }

/-- Scenario step list for the C10 witness: one successful apply of
delta 5 on a fresh actor. -/
def c10Steps : List (ScoreReq × Bool) :=
  [({ userId := "u01", actionType := "GAME_COMPLETE", scoreIncrement := 5 }, true)]

/-- Scenario request for the C10 witness: a non-positive delta. -/
def c10Req : ScoreReq :=
  { userId := "u01", actionType := "GAME_COMPLETE", scoreIncrement := -5 }

/-! Basic lemmas about the association-list operations. -/

theorem alookup_aset_self (k : String) (v : α) (l : List (String × α)) :
    alookup k (aset k v l) = some v := by
  simp [aset, alookup]

theorem alookup_filter_ne (k k2 : String) (l : List (String × α)) (h : k ≠ k2) :
    alookup k (l.filter (fun p => !decide (p.1 = k2))) = alookup k l := by
  induction l with
  | nil => rfl
  | cons hd t ih =>
    have hne2 : ¬ k2 = k := fun he => h he.symm
    by_cases hh : hd.1 = k2
    · have hne : ¬ hd.1 = k := by rw [hh]; exact fun he => h he.symm
      simp [List.filter_cons, hh, alookup, hne, hne2, ih]
    · by_cases hk : hd.1 = k <;> simp [List.filter_cons, hh, alookup, hk, h, hne2, ih]

theorem alookup_aset_ne (k k2 : String) (v : α) (l : List (String × α)) (h : k ≠ k2) :
    alookup k (aset k2 v l) = alookup k l := by
  have hne : ¬ k2 = k := fun he => h he.symm
  simp only [aset, alookup, hne, if_false]
  simpa using alookup_filter_ne k k2 l h

theorem alookup_mem {k : String} {v : α} {l : List (String × α)}
    (h : alookup k l = some v) : (k, v) ∈ l := by
  induction l with
  | nil => simp [alookup] at h
  | cons hd t ih =>
    obtain ⟨k1, v1⟩ := hd
    by_cases hh : k1 = k
    · simp [alookup, hh] at h
      simp [hh, h]
    · simp [alookup, hh] at h
      exact List.mem_cons_of_mem _ (ih h)

theorem mem_aset_cases {k : String} {v : α} {x : String × α} {l : List (String × α)}
    (h : x ∈ aset k v l) : x = (k, v) ∨ x ∈ l := by
  rcases List.mem_cons.mp h with h1 | h1
  · exact Or.inl h1
  · exact Or.inr (List.mem_filter.mp h1).1

/-! Lemmas about the cache-first score read. -/

theorem getCurrentScore_frame (u : String) (w : World) :
    (getCurrentScore u w).2.clock = w.clock ∧
    (getCurrentScore u w).2.dbScores = w.dbScores ∧
    (getCurrentScore u w).2.audit = w.audit ∧
    (getCurrentScore u w).2.zset = w.zset ∧
    (getCurrentScore u w).2.snapCache = w.snapCache ∧
    (getCurrentScore u w).2.usedNonces = w.usedNonces ∧
    (getCurrentScore u w).2.rateCounts = w.rateCounts := by
  unfold getCurrentScore
  cases alookup u w.scoreCache <;> simp

theorem getCurrentScore_hit (u : String) (w : World) (v : Int)
    (h : alookup u w.scoreCache = some v) : getCurrentScore u w = (v, w) := by
  unfold getCurrentScore
  rw [h]

theorem getCurrentScore_cached (u : String) (w : World) :
    alookup u (getCurrentScore u w).2.scoreCache = some (getCurrentScore u w).1 := by
  unfold getCurrentScore
  cases h : alookup u w.scoreCache with
  | some v => simpa using h
  | none => simp [alookup_aset_self]

theorem getCurrentScore_idem (u : String) (w : World) :
    getCurrentScore u (getCurrentScore u w).2 = getCurrentScore u w := by
  rw [getCurrentScore_hit u (getCurrentScore u w).2 (getCurrentScore u w).1
    (getCurrentScore_cached u w)]

/-! Lemmas about the token validator. -/

theorem validateActionToken_early (p : ActionTok) (u : String) (w : World)
    (h : p.timestamp + tokenTtl ≤ w.clock ∨ ¬ p.userId = u ∨ nonceLive w p.nonce = true) :
    (validateActionToken (.signed p) u w).2 = w ∧
    (validateActionToken (.signed p) u w).1 ≠ .ok := by
  unfold validateActionToken
  rcases h with h | h | h
  · simp [h]
  · by_cases h1 : p.timestamp + tokenTtl ≤ w.clock <;> simp [h1, h]
  · by_cases h1 : p.timestamp + tokenTtl ≤ w.clock <;>
      by_cases h2 : p.userId = u <;> simp [h1, h2, h]

theorem validateActionToken_pass (p : ActionTok) (u : String) (w : World)
    (h1 : w.clock < p.timestamp + tokenTtl) (h2 : p.userId = u)
    (h3 : nonceLive w p.nonce = false) :
    validateActionToken (.signed p) u w =
      (if p.actionType ∈ validActionTypes then VResult.ok
         else VResult.err .INVALID_ACTION_TOKEN,
       { w with usedNonces :=
           (aset ("action_token:" ++ p.nonce) (w.clock + tokenTtl) w.usedNonces) }) := by
  unfold validateActionToken
  simp only [not_le.mpr h1, h2, h3, if_false, ite_false, Bool.false_eq_true]
  by_cases h4 : p.actionType ∈ validActionTypes <;> simp [h4]

theorem validateActionToken_frame (tok : JwtTok) (u : String) (w : World) :
    (validateActionToken tok u w).2.clock = w.clock ∧
    (validateActionToken tok u w).2.dbScores = w.dbScores ∧
    (validateActionToken tok u w).2.audit = w.audit ∧
    (validateActionToken tok u w).2.scoreCache = w.scoreCache ∧
    (validateActionToken tok u w).2.zset = w.zset ∧
    (validateActionToken tok u w).2.snapCache = w.snapCache ∧
    (validateActionToken tok u w).2.rateCounts = w.rateCounts := by
  cases tok with
  | malformed => simp [validateActionToken]
  | signed p =>
    unfold validateActionToken
    by_cases h1 : p.timestamp + tokenTtl ≤ w.clock <;>
      by_cases h2 : p.userId = u <;>
        by_cases h3 : nonceLive w p.nonce = true <;>
          by_cases h4 : p.actionType ∈ validActionTypes <;>
            simp [h1, h2, h3, h4]

theorem validateActionToken_ok_state (p : ActionTok) (u : String) (w w1 : World)
    (h : validateActionToken (.signed p) u w = (.ok, w1)) :
    w1 = { w with usedNonces :=
      (aset ("action_token:" ++ p.nonce) (w.clock + tokenTtl) w.usedNonces) } ∧
    p.userId = u ∧ nonceLive w p.nonce = false := by
  by_cases h1 : p.timestamp + tokenTtl ≤ w.clock
  · have he := (validateActionToken_early p u w (Or.inl h1)).2
    rw [h] at he
    simp at he
  · by_cases h2 : p.userId = u
    · by_cases h3 : nonceLive w p.nonce = true
      · have he := (validateActionToken_early p u w (Or.inr (Or.inr h3))).2
        rw [h] at he
        simp at he
      · have h3' : nonceLive w p.nonce = false := by
          cases hb : nonceLive w p.nonce
          · rfl
          · exact absurd hb h3
        have hp := validateActionToken_pass p u w (not_le.mp h1) h2 h3'
        rw [hp] at h
        exact ⟨(Prod.mk.injEq _ _ _ _).mp h |>.2.symm, h2, h3'⟩
    · have he := (validateActionToken_early p u w (Or.inr (Or.inl h2))).2
      rw [h] at he
      simp at he

/-! Lemmas about the rate limiter. -/

theorem checkRateLimit_denied (u a : String) (w : World)
    (h : (checkRateLimit u a w).1.1 = false) :
    checkRateLimit u a w = ((false, 0), w) := by
  unfold checkRateLimit at h ⊢
  by_cases hc : 10 ≤ rateCount w (rateKey u a)
  · simp [hc]
  · by_cases h0 : rateCount w (rateKey u a) = 0 <;> simp [hc, h0] at h

/-! Lemmas about the pipeline failure path. -/

theorem failPath_spec (req : ScoreReq) (e : ErrCode) (w : World) :
    (failPath req e w).1.success = false ∧
    (failPath req e w).1.message = some e ∧
    (failPath req e w).2.dbScores = w.dbScores ∧
    (failPath req e w).2.zset = w.zset ∧
    (failPath req e w).2.snapCache = w.snapCache ∧
    (failPath req e w).2.usedNonces = w.usedNonces ∧
    (failPath req e w).2.rateCounts = w.rateCounts ∧
    (failPath req e w).2.clock = w.clock ∧
    (failPath req e w).2.scoreCache = (getCurrentScore req.userId w).2.scoreCache ∧
    (failPath req e w).2.audit =
      w.audit ++ [mkFailEntry req (getCurrentScore req.userId w).1 e w.clock] := by
  obtain ⟨hc, hdb, hau, hz, hsn, hun, hrc⟩ := getCurrentScore_frame req.userId w
  have hhit := getCurrentScore_hit req.userId
    { (getCurrentScore req.userId w).2 with audit :=
        ((getCurrentScore req.userId w).2.audit ++
          [mkFailEntry req (getCurrentScore req.userId w).1 e
            (getCurrentScore req.userId w).2.clock]) }
    (getCurrentScore req.userId w).1 (getCurrentScore_cached req.userId w)
  unfold failPath
  simp only [hhit]
  simp [hau, hc, hdb, hz, hsn, hun, hrc]

/-! Claim theorems. -/

/-- C1: at the token-validation stage the route rejects the attempted
mutation with HTTP 422 and returns without calling `updateScore`, so no
Audit Entry at all is written for the attempt — contradicting the claim
that every attempted mutation, including token-validation failures,
produces exactly one Audit Entry with `success = false`.  Evaluation of
the embedded handler at the failing input: a replayed token is rejected
and the audit log stays empty. -/
theorem c1_token_rejection_writes_no_audit :
    (handleScoreUpdate "u01" c1Body true c1World).1 =
      .tokenRejected .INVALID_ACTION_TOKEN ∧
    (handleScoreUpdate "u01" c1Body true c1World).2.audit = [] ∧
    c1World.audit = [] := by decide

/-- C3 counterexample: with the actor's fixed-window counter already at
its maximum and a fresh valid token submitted, the handler validates
(and thereby consumes) the token first and only then consults the rate
limiter: the request is rejected as rate-limited, yet the token's nonce
has been marked used — the claim that a rate-limited request is rejected
without consuming its token is false at this input. -/
theorem c3_rate_limited_consumes_token :
    (handleScoreUpdate "u01" c3Body true c3World).1 = .rateLimited ∧
    nonceLive (handleScoreUpdate "u01" c3Body true c3World).2 "n2" = true ∧
    nonceLive c3World "n2" = false := by decide

/-- C4 counterexample: a well-signed, unexpired, correctly-owned token
with a fresh nonce but an unknown action kind is rejected with
`INVALID_ACTION_TOKEN`, yet its nonce has been marked used — the claim
that any rejection leaves the consumed-state unchanged is false at this
input. -/
theorem c4_unknown_kind_marks_nonce :
    (validateActionToken (.signed c4Tok) "u01" freshWorld).1 =
      .err .INVALID_ACTION_TOKEN ∧
    nonceLive (validateActionToken (.signed c4Tok) "u01" freshWorld).2 "n4" = true ∧
    nonceLive freshWorld "n4" = false := by decide

/-- C5 counterexample: in the state reached by upserting a single actor,
the number of other actors with strictly greater score is `0`, but
`ScoreService.getUserRank` returns `some 1` (the wrapper's `zRevRank`
plus one, a 1-based rank), so the claim that the returned rank equals
the 0-based strictly-greater count is false at this input. -/
theorem c5_rank_is_one_based :
    getUserRank c5Z "a" = some 1 ∧ countGreater c5Z 100 = 0 ∧
    getUserRank c5Z "a" ≠ some (countGreater c5Z 100) := by decide

/-- C6: evaluation of the top-k query at a two-member leaderboard with
`k = 2`.  `RedisClientWrapper.zrevrange` returns one combined
`"member:score"` string per member, but the consumer loop of
`LeaderboardService.getTopUsers` expects a flat alternating array: the
result is a single entry whose user id is the mangled string `"a:2"` and
whose score is `parseInt "b:1" = NaN`, instead of the two (id, stored
score) pairs the claim describes. -/
theorem c6_topusers_garbled :
    getTopUsersEntries c6Z 2 = [("a:2", none)] ∧
    getTopUsersEntries c6Z 2 ≠ [("a", some 2), ("b", some 1)] := by decide

/-- C7 counterexample: when durable persistence fails for an actor whose
score is on record but not yet cached, the failing operation still
populates the fast-read score cache (with the pre-mutation score) via
its read path, so the claim that the cache is left unchanged on a
persistence failure is false at this input. -/
theorem c7_cache_filled_on_failure :
    (updateScore c7Req false c7World).1.success = false ∧
    (updateScore c7Req false c7World).2.scoreCache = [("u07", 5)] ∧
    c7World.scoreCache = [] := by decide

/-- C8: after ten allowed requests in one window the counter key holds
`10` with no expiration (the plain `SET` used for increments discards
the TTL set by the first request), so the eleventh request is denied
both inside the window and after the 60-second window has elapsed —
contradicting the claim that a new request is allowed once the window
elapses. -/
theorem c8_window_never_elapses :
    (checkRateLimit "u01" "score_update" freshWorld).1.1 = true ∧
    (checkRateLimit "u01" "score_update" rateAfterTen).1.1 = false ∧
    (checkRateLimit "u01" "score_update" { rateAfterTen with clock := 61 }).1.1 = false ∧
    alookup (rateKey "u01" "score_update") rateAfterTen.rateCounts = some (10, none) := by
  decide

/-- C9: a fully successful pipeline run (valid token, rate limit clear,
persistence succeeding) leaves the cached `leaderboard:top10` snapshot
key exactly as it was — `ScoreService.updateLeaderboard` only `ZADD`s —
while the invalidation routine sits unused in
`LeaderboardService.updateUserScore`, which does delete the snapshot
keys. -/
theorem c9_pipeline_leaves_snapshot_cache :
    (handleScoreUpdate "u01" c9Body true c9World).1 = .succeeded 5 (some 1) ∧
    (handleScoreUpdate "u01" c9Body true c9World).2.snapCache =
      [("leaderboard:top10", 30)] ∧
    (lbUpdateUserScore "u01" 5 c9World).snapCache = [] := by decide

/-- C2: once a validation attempt for a token has succeeded (marking its
nonce used until `clock + tokenTtl`), any later validation attempt of
the identical token within the token's validity window is rejected with
`INVALID_ACTION_TOKEN` (the already-used rejection of
`AuthService.validateActionToken`), leaving the state unchanged.
`hiss` says the first validation did not happen before the token was
issued. -/
theorem c2_token_replay_rejected (p : ActionTok) (u : String) (w : World) (t2 : Nat)
    (hiss : p.timestamp ≤ w.clock)
    (hok : (validateActionToken (.signed p) u w).1 = .ok)
    (hwin : t2 < p.timestamp + tokenTtl) :
    validateActionToken (.signed p) u
        { (validateActionToken (.signed p) u w).2 with clock := t2 } =
      (.err .INVALID_ACTION_TOKEN,
       { (validateActionToken (.signed p) u w).2 with clock := t2 }) := by
  have hfull : validateActionToken (.signed p) u w =
      (.ok, (validateActionToken (.signed p) u w).2) := by
    rw [← hok]
  obtain ⟨hw1, hu, _⟩ := validateActionToken_ok_state p u w _ hfull
  rw [hw1]
  have hnl2 : nonceLive
      { { w with usedNonces :=
          (aset ("action_token:" ++ p.nonce) (w.clock + tokenTtl) w.usedNonces) }
        with clock := t2 } p.nonce = true := by
    simp only [nonceLive, alookup_aset_self, decide_eq_true_eq]
    omega
  unfold validateActionToken
  simp [not_le.mpr hwin, hu, hnl2]

/-- Closed witness for C2: the concrete token `c2Tok`, validated
successfully at clock 0 and replayed at clock 30, is rejected as
already used. -/
theorem c2_token_replay_rejected_witness :
    validateActionToken (.signed c2Tok) "u01"
        { (validateActionToken (.signed c2Tok) "u01" freshWorld).2 with clock := 30 } =
      (.err .INVALID_ACTION_TOKEN,
       { (validateActionToken (.signed c2Tok) "u01" freshWorld).2 with clock := 30 }) :=
  c2_token_replay_rejected c2Tok "u01" freshWorld 30 (by decide) (by decide) (by decide)

/-- C4 amended: the nonce's consumed-state changes exactly when the
signature, expiry, ownership and not-already-used checks all pass.  When
any of those four early checks fires, the validator rejects and the
state is unchanged; when they all pass, the nonce is marked used for the
validity window and the result is `ok` precisely when the action kind is
in the whitelist — so the unknown-action-kind rejection also consumes
the nonce.  Malformed tokens are rejected with no state change. -/
theorem c4_mark_iff_checks_pass (p : ActionTok) (u : String) (w : World) :
    (earlyReject p u w = true →
      (validateActionToken (.signed p) u w).1 ≠ .ok ∧
      (validateActionToken (.signed p) u w).2 = w) ∧
    (earlyReject p u w = false →
      (validateActionToken (.signed p) u w).2 =
        { w with usedNonces :=
          (aset ("action_token:" ++ p.nonce) (w.clock + tokenTtl) w.usedNonces) } ∧
      ((validateActionToken (.signed p) u w).1 = .ok ↔
        p.actionType ∈ validActionTypes)) ∧
    validateActionToken .malformed u w = (.err .INVALID_ACTION_TOKEN, w) := by
  refine ⟨fun h => ?_, fun h => ?_, rfl⟩
  · have h' : p.timestamp + tokenTtl ≤ w.clock ∨ ¬ p.userId = u ∨
        nonceLive w p.nonce = true := by
      simpa [earlyReject, or_assoc] using h
    have he := validateActionToken_early p u w h'
    exact ⟨he.2, he.1⟩
  · have h' : w.clock < p.timestamp + tokenTtl ∧ p.userId = u ∧
        nonceLive w p.nonce = false := by
      simpa [earlyReject, and_assoc] using h
    obtain ⟨h1, h2, h3⟩ := h'
    rw [validateActionToken_pass p u w h1 h2 h3]
    refine ⟨rfl, ?_⟩
    by_cases h4 : p.actionType ∈ validActionTypes <;> simp [h4]

/-- Closed witness for C4 amended: the unknown-kind token `c4Tok` passes
all four early checks, so its nonce is marked used even though the
validator rejects it. -/
theorem c4_mark_iff_checks_pass_witness :
    earlyReject c4Tok "u01" freshWorld = false ∧
    ((validateActionToken (.signed c4Tok) "u01" freshWorld).2 =
      { freshWorld with usedNonces :=
        (aset ("action_token:" ++ c4Tok.nonce) (freshWorld.clock + tokenTtl)
          freshWorld.usedNonces) } ∧
     ((validateActionToken (.signed c4Tok) "u01" freshWorld).1 = .ok ↔
       c4Tok.actionType ∈ validActionTypes)) :=
  ⟨by decide, (c4_mark_iff_checks_pass c4Tok "u01" freshWorld).2.1 (by decide)⟩

/-- C3 amended: the handler short-circuits in the order Joi delta
validation, token validation, per-user rate limit.  An out-of-bounds
delta is rejected with no state change at all (no token or rate-count
consumption); a token-rejected request leaves the rate counter, the
persisted scores and the audit log untouched; a rate-limited request is
rejected before reaching the pipeline (scores and audit untouched) but
its token's nonce has already been marked used. -/
theorem c3_order_amended (userId : String) (b : ScoreBody) (pk : Bool) (w : World)
    (hlen : 3 ≤ userId.length) :
    (joiValid b = false → handleScoreUpdate userId b pk w = (.badRequestValidation, w)) ∧
    (∀ e w1, joiValid b = true →
      validateActionToken b.actionToken userId w = (.err e, w1) →
      handleScoreUpdate userId b pk w = (.tokenRejected e, w1) ∧
        w1.rateCounts = w.rateCounts ∧ w1.dbScores = w.dbScores ∧ w1.audit = w.audit) ∧
    (∀ p w1, joiValid b = true → b.actionToken = .signed p →
      validateActionToken b.actionToken userId w = (.ok, w1) →
      (checkRateLimit userId "score_update" w1).1.1 = false →
      handleScoreUpdate userId b pk w = (.rateLimited, w1) ∧
        w1.dbScores = w.dbScores ∧ w1.audit = w.audit ∧
        w1.usedNonces =
          (aset ("action_token:" ++ p.nonce) (w.clock + tokenTtl) w.usedNonces)) := by
  have hnl : ¬ userId.length < 3 := not_lt.mpr hlen
  refine ⟨fun hj => ?_, fun e w1 hj hv => ?_, fun p w1 hj hsig hv hden => ?_⟩
  · simp [handleScoreUpdate, hnl, hj]
  · obtain ⟨hc, hdb, hau, hsc, hz, hsn, hrc⟩ := validateActionToken_frame b.actionToken userId w
    rw [hv] at hdb hau hrc
    exact ⟨by simp [handleScoreUpdate, hnl, hj, hv], hrc, hdb, hau⟩
  · obtain ⟨hmark, hu, hnlv⟩ := validateActionToken_ok_state p userId w w1 (hsig ▸ hv)
    obtain ⟨hc, hdb, hau, hsc, hz, hsn, hrc⟩ := validateActionToken_frame b.actionToken userId w
    rw [hv] at hdb hau
    have hden2 := checkRateLimit_denied userId "score_update" w1 hden
    refine ⟨by simp [handleScoreUpdate, hnl, hj, hv, hden2], hdb, hau, ?_⟩
    rw [hmark]

/-- Closed witness for C3 amended: in the `c3World` scenario the rate
limiter denies the request after the token has been validated, and the
final state `c3W1` carries the consumed nonce while scores and audit log
are untouched. -/
theorem c3_order_amended_witness :
    joiValid c3Body = true ∧
    (handleScoreUpdate "u01" c3Body true c3World = (.rateLimited, c3W1) ∧
      c3W1.dbScores = c3World.dbScores ∧ c3W1.audit = c3World.audit ∧
      c3W1.usedNonces =
        (aset ("action_token:" ++ c3TokP.nonce) (c3World.clock + tokenTtl)
          c3World.usedNonces)) :=
  ⟨by decide,
    (c3_order_amended "u01" c3Body true c3World (by decide)).2.2 c3TokP c3W1
      (by decide) (by decide) (by decide) (by decide)⟩

/-- C7 amended: when durable persistence fails on an in-bounds delta,
the operation returns a Failure, the persisted scores, sorted set,
snapshot cache and used-nonce set are unchanged, exactly one failure
Audit Entry is appended, and the score cache holds exactly what the
read path produced (the pre-mutation score; never the new score); when
persistence succeeds, the sorted set receives the new score. -/
theorem c7_persistence_failure_amended (req : ScoreReq) (w : World)
    (h1 : 0 < req.scoreIncrement) (h2 : req.scoreIncrement ≤ MAX_SCORE_INCREMENT) :
    (updateScore req false w).1.success = false ∧
    (updateScore req false w).1.message = some .DB_ERROR ∧
    (updateScore req false w).2.dbScores = w.dbScores ∧
    (updateScore req false w).2.zset = w.zset ∧
    (updateScore req false w).2.snapCache = w.snapCache ∧
    (updateScore req false w).2.usedNonces = w.usedNonces ∧
    (updateScore req false w).2.scoreCache = (getCurrentScore req.userId w).2.scoreCache ∧
    (updateScore req false w).2.audit =
      w.audit ++ [mkFailEntry req (getCurrentScore req.userId w).1 .DB_ERROR w.clock] ∧
    (updateScore req true w).2.zset =
      (aset req.userId ((getCurrentScore req.userId w).1 + req.scoreIncrement) w.zset) := by
  have hg : ¬ (req.scoreIncrement ≤ 0 ∨ MAX_SCORE_INCREMENT < req.scoreIncrement) := by
    push_neg
    exact ⟨h1, h2⟩
  obtain ⟨hc, hdb, hau, hz, hsn, hun, hrc⟩ := getCurrentScore_frame req.userId w
  obtain ⟨f1, f2, f3, f4, f5, f6, f7, f8, f9, f10⟩ :=
    failPath_spec req .DB_ERROR (getCurrentScore req.userId w).2
  have hred : updateScore req false w =
      failPath req .DB_ERROR (getCurrentScore req.userId w).2 := by
    unfold updateScore
    rw [if_neg hg]
    simp
  have hred2 : (updateScore req true w).2.zset =
      aset req.userId ((getCurrentScore req.userId w).1 + req.scoreIncrement) w.zset := by
    unfold updateScore
    rw [if_neg hg]
    simp [hz]
  rw [hred]
  refine ⟨f1, f2, ?_, ?_, ?_, ?_, ?_, ?_, hred2⟩
  · rw [f3, hdb]
  · rw [f4, hz]
  · rw [f5, hsn]
  · rw [f6, hun]
  · rw [f9, getCurrentScore_idem]
  · rw [f10, getCurrentScore_idem, hau, hc]

/-- Closed witness for C7 amended: the `c7World` scenario with delta 3
and failing persistence. -/
theorem c7_persistence_failure_amended_witness :
    (0 < c7Req.scoreIncrement ∧ c7Req.scoreIncrement ≤ MAX_SCORE_INCREMENT) ∧
    ((updateScore c7Req false c7World).1.success = false ∧
     (updateScore c7Req false c7World).1.message = some .DB_ERROR ∧
     (updateScore c7Req false c7World).2.dbScores = c7World.dbScores ∧
     (updateScore c7Req false c7World).2.zset = c7World.zset ∧
     (updateScore c7Req false c7World).2.snapCache = c7World.snapCache ∧
     (updateScore c7Req false c7World).2.usedNonces = c7World.usedNonces ∧
     (updateScore c7Req false c7World).2.scoreCache =
       (getCurrentScore c7Req.userId c7World).2.scoreCache ∧
     (updateScore c7Req false c7World).2.audit =
       c7World.audit ++
         [mkFailEntry c7Req (getCurrentScore c7Req.userId c7World).1 .DB_ERROR
           c7World.clock] ∧
     (updateScore c7Req true c7World).2.zset =
       (aset c7Req.userId
         ((getCurrentScore c7Req.userId c7World).1 + c7Req.scoreIncrement)
         c7World.zset)) :=
  ⟨⟨by decide, by decide⟩,
    c7_persistence_failure_amended c7Req c7World (by decide) (by decide)⟩

/-- Every score returned or written by the cache-first read is
non-negative when the state satisfies the invariant. -/
theorem getCurrentScore_nonneg (u : String) (w : World) (h : ScoresNonneg w) :
    0 ≤ (getCurrentScore u w).1 ∧ ScoresNonneg (getCurrentScore u w).2 := by
  have hdb0 : 0 ≤ (alookup u w.dbScores).getD 0 := by
    cases hd : alookup u w.dbScores with
    | some d => simpa using h.1 (u, d) (alookup_mem hd)
    | none => simp
  unfold getCurrentScore
  cases hc : alookup u w.scoreCache with
  | some v => exact ⟨h.2 (u, v) (alookup_mem hc), h⟩
  | none =>
    refine ⟨hdb0, h.1, fun p hp => ?_⟩
    rcases mem_aset_cases hp with hpe | hpm
    · rw [hpe]
      exact hdb0
    · exact h.2 p hpm

/-- The catch block preserves the non-negativity invariant. -/
theorem failPath_nonneg (req : ScoreReq) (e : ErrCode) (w : World) (h : ScoresNonneg w) :
    ScoresNonneg (failPath req e w).2 := by
  obtain ⟨-, -, hdb, -, -, -, -, -, hsc, -⟩ := failPath_spec req e w
  have h2 := (getCurrentScore_nonneg req.userId w h).2
  constructor
  · rw [hdb]
    exact h.1
  · rw [hsc]
    exact h2.2

/-- One pipeline call preserves the non-negativity invariant. -/
theorem updateScore_nonneg (req : ScoreReq) (pk : Bool) (w : World) (h : ScoresNonneg w) :
    ScoresNonneg (updateScore req pk w).2 := by
  unfold updateScore
  by_cases hg : req.scoreIncrement ≤ 0 ∨ MAX_SCORE_INCREMENT < req.scoreIncrement
  · rw [if_pos hg]
    exact failPath_nonneg _ _ _ h
  · rw [if_neg hg]
    obtain ⟨hv, hw⟩ := getCurrentScore_nonneg req.userId w h
    push_neg at hg
    have hnn : 0 ≤ (getCurrentScore req.userId w).1 + req.scoreIncrement :=
      add_nonneg hv (le_of_lt hg.1)
    cases pk with
    | false =>
      simp only [Bool.false_eq_true, if_false]
      exact failPath_nonneg _ _ _ hw
    | true =>
      simp only [if_true]
      refine ⟨fun p hp => ?_, fun p hp => ?_⟩
      · rcases mem_aset_cases hp with hpe | hpm
        · rw [hpe]
          exact hnn
        · exact hw.1 p hpm
      · rcases mem_aset_cases hp with hpe | hpm
        · rw [hpe]
          exact hnn
        · exact hw.2 p hpm

/-- Any sequence of pipeline calls preserves the invariant. -/
theorem runUpdates_nonneg (steps : List (ScoreReq × Bool)) (w : World)
    (h : ScoresNonneg w) : ScoresNonneg (runUpdates steps w) := by
  induction steps generalizing w with
  | nil => exact h
  | cons s t ih => exact ih _ (updateScore_nonneg s.1 s.2 w h)

/-- C10: starting from the fresh state (score 0 for every actor), after
any sequence of pipeline calls every persisted score row and every
cached score entry is non-negative, and any call with a non-positive
delta is rejected before persistence (Failure result; persisted scores
and sorted set untouched). -/
theorem c10_scores_nonneg (steps : List (ScoreReq × Bool)) (req : ScoreReq) (pk : Bool)
    (w : World) :
    (∀ p ∈ (runUpdates steps freshWorld).dbScores, 0 ≤ p.2) ∧
    (∀ p ∈ (runUpdates steps freshWorld).scoreCache, 0 ≤ p.2) ∧
    (req.scoreIncrement ≤ 0 →
      (updateScore req pk w).1.success = false ∧
      (updateScore req pk w).2.dbScores = w.dbScores ∧
      (updateScore req pk w).2.zset = w.zset) := by
  have h := runUpdates_nonneg steps freshWorld ⟨by simp [freshWorld], by simp [freshWorld]⟩
  refine ⟨h.1, h.2, fun hneg => ?_⟩
  have hred : updateScore req pk w = failPath req .INVALID_SCORE_INCREMENT w := by
    unfold updateScore
    rw [if_pos (Or.inl hneg)]
  obtain ⟨f1, -, f3, f4, -, -, -, -, -, -⟩ := failPath_spec req .INVALID_SCORE_INCREMENT w
  rw [hred]
  exact ⟨f1, f3, f4⟩

/-- Closed witness for C10: one successful apply of delta 5 leaves the
persisted score 5 non-negative, and a delta of -5 is rejected with no
score or sorted-set change. -/
theorem c10_scores_nonneg_witness :
    (("u01", (5 : Int)) ∈ (runUpdates c10Steps freshWorld).dbScores ∧
      0 ≤ (("u01", (5 : Int))).2) ∧
    (c10Req.scoreIncrement ≤ 0 ∧
      ((updateScore c10Req true freshWorld).1.success = false ∧
       (updateScore c10Req true freshWorld).2.dbScores = freshWorld.dbScores ∧
       (updateScore c10Req true freshWorld).2.zset = freshWorld.zset)) :=
  ⟨⟨by decide, (c10_scores_nonneg c10Steps c10Req true freshWorld).1 ("u01", (5 : Int))
      (by decide)⟩,
   ⟨by decide, (c10_scores_nonneg c10Steps c10Req true freshWorld).2.2 (by decide)⟩⟩

/-- Upserting preserves key uniqueness of the sorted-set representation. -/
theorem aset_keys_pairwise {l : List (String × Int)} (k : String) (v : Int)
    (h : l.Pairwise (fun a b => a.1 ≠ b.1)) :
    (aset k v l).Pairwise (fun a b => a.1 ≠ b.1) := by
  unfold aset
  refine List.Pairwise.cons (fun b hb => ?_) (h.filter _)
  have hb2 := (List.mem_filter.mp hb).2
  simp only [decide_eq_true_eq] at hb2
  exact fun he => hb2 (he ▸ rfl)

/-- Every reachable sorted-set state has pairwise-distinct member keys. -/
theorem runZOps_keys_aux (ops : List ZOp) (z : List (String × Int))
    (h : z.Pairwise (fun a b => a.1 ≠ b.1)) :
    (ops.foldl applyZOp z).Pairwise (fun a b => a.1 ≠ b.1) := by
  induction ops generalizing z with
  | nil => exact h
  | cons o t ih =>
    cases o with
    | upsert u s => exact ih _ (aset_keys_pairwise u s h)
    | remove u => exact ih _ h

/-- Key uniqueness for states reached from the empty sorted set. -/
theorem runZOps_keys (ops : List ZOp) :
    (runZOps ops).Pairwise (fun a b => a.1 ≠ b.1) :=
  runZOps_keys_aux ops [] (by simp)

/-- Membership gives a successful lookup. -/
theorem alookup_isSome_of_mem {l : List (String × α)} {k : String} {v : α}
    (h : (k, v) ∈ l) : (alookup k l).isSome = true := by
  induction l with
  | nil => simp at h
  | cons hd t ih =>
    by_cases hh : hd.1 = k
    · simp [alookup, hh]
    · rcases List.mem_cons.mp h with he | hmt
      · exact absurd (by rw [← he]) hh
      · simp only [alookup, hh, if_false]
        exact ih hmt

/-- In a list sorted by the `ZREVRANGE` order with pairwise-distinct
keys and pairwise-distinct scores, the index of a member equals the
number of entries with strictly greater score. -/
theorem findIdx_sorted_count (u : String) (s : Int) :
    ∀ (l : List (String × Int)), l.Sorted revBefore →
      l.Pairwise (fun a b => a.1 ≠ b.1) → l.Pairwise (fun a b => a.2 ≠ b.2) →
      (u, s) ∈ l →
      l.findIdx (fun p => p.1 == u) = (l.filter (fun p => decide (s < p.2))).length := by
  intro l
  induction l with
  | nil =>
    intro _ _ _ hm
    exact absurd hm (List.not_mem_nil _)
  | cons hd t ih =>
    intro hsort hk hs hm
    obtain ⟨hrel, hsort2⟩ := List.sorted_cons.mp hsort
    obtain ⟨hk1, hk2⟩ := List.pairwise_cons.mp hk
    obtain ⟨hs1, hs2⟩ := List.pairwise_cons.mp hs
    by_cases hku : hd.1 = u
    · have hds : hd.2 = s := by
        rcases List.mem_cons.mp hm with he | hmt
        · rw [← he]
        · exact absurd hku (by simpa using (hk1 (u, s) hmt))
      rw [List.findIdx_cons, List.filter_cons]
      have hns : ¬ (s < hd.2) := by
        rw [hds]
        exact lt_irrefl s
      have hft : t.filter (fun p => decide (s < p.2)) = [] := by
        rw [List.filter_eq_nil_iff]
        intro a ha
        simp only [decide_eq_true_eq]
        rcases hrel a ha with hlt | ⟨heq, -⟩
        · exact not_lt.mpr (le_of_lt (hds ▸ hlt))
        · exact absurd heq (hs1 a ha)
      simp [hku, hns, hft]
    · have hmt : (u, s) ∈ t := by
        rcases List.mem_cons.mp hm with he | hmt
        · exact absurd (by rw [← he]) hku
        · exact hmt
      have hlt : s < hd.2 := by
        rcases hrel (u, s) hmt with hlt | ⟨heq, -⟩
        · exact hlt
        · exact absurd heq (hs1 (u, s) hmt)
      rw [List.findIdx_cons, List.filter_cons]
      have hbu : (hd.1 == u) = false := by
        simpa using hku
      simp [hbu, hlt, ih hsort2 hk2 hs2 hmt]

/-- The wrapper's reverse rank of a member actor is the count of entries
with strictly greater score, for states with distinct keys and distinct
scores. -/
theorem zRevRank_eq_countGreater (z : List (String × Int)) (u : String) (s : Int)
    (hk : z.Pairwise (fun a b => a.1 ≠ b.1))
    (hs : z.Pairwise (fun a b => a.2 ≠ b.2))
    (hm : (u, s) ∈ z) :
    zRevRank z u = some (countGreater z s) := by
  have hperm := List.perm_insertionSort revBefore z
  have hsort : (zrevList z).Sorted revBefore := List.sorted_insertionSort revBefore z
  have hk2 : (zrevList z).Pairwise (fun a b => a.1 ≠ b.1) :=
    (hperm.pairwise_iff (fun h => h.symm)).mpr hk
  have hs2 : (zrevList z).Pairwise (fun a b => a.2 ≠ b.2) :=
    (hperm.pairwise_iff (fun h => h.symm)).mpr hs
  have hm2 : (u, s) ∈ zrevList z := hperm.mem_iff.mpr hm
  have hfi := findIdx_sorted_count u s (zrevList z) hsort hk2 hs2 hm2
  unfold zRevRank
  rw [if_pos (alookup_isSome_of_mem hm)]
  rw [show (zrevList z).findIdx (fun p => p.1 == u) =
      ((zrevList z).filter (fun p => decide (s < p.2))).length from hfi]
  exact congrArg some ((hperm.filter _).length_eq)

/-- C5 amended: for every Ranked Store state reachable by sequences of
upsert/remove whose scores are pairwise distinct, and every member actor,
`ScoreService.getUserRank` and `LeaderboardService.getUserPosition`
return the 1-based rank: one plus the number of distinct other actors
with strictly greater score (the code adds 1 to the wrapper's
`zRevRank`). -/
theorem c5_rank_counts_greater (ops : List ZOp) (u : String) (s : Int)
    (hs : (runZOps ops).Pairwise (fun a b => a.2 ≠ b.2))
    (hm : (u, s) ∈ runZOps ops) :
    getUserRank (runZOps ops) u = some (countGreater (runZOps ops) s + 1) ∧
    (getUserPosition (runZOps ops) u).rank =
      some (countGreater (runZOps ops) s + 1) := by
  have hk := runZOps_keys ops
  have hr := zRevRank_eq_countGreater (runZOps ops) u s hk hs hm
  constructor
  · simp [getUserRank, hr]
  · simp [getUserPosition, hr]

/-- Closed witness for C5 amended: with members a (score 100) and
b (score 50), actor b has one actor above it and the services return
rank 2 (= 1 + 1). -/
theorem c5_rank_counts_greater_witness :
    ((runZOps c5WOps).Pairwise (fun a b => a.2 ≠ b.2) ∧
      ("b", (50 : Int)) ∈ runZOps c5WOps) ∧
    (getUserRank (runZOps c5WOps) "b" = some (countGreater (runZOps c5WOps) 50 + 1) ∧
     (getUserPosition (runZOps c5WOps) "b").rank =
       some (countGreater (runZOps c5WOps) 50 + 1)) :=
  ⟨⟨by decide, by decide⟩, c5_rank_counts_greater c5WOps "b" 50 (by decide) (by decide)⟩

end Scoreboard
